import Mathlib

/-!
Verification of the manifest bundling engine in
`src/compiler/bundle/bundle.ts`: the tag resolver (`getManifestBundles`),
the encapsulation classifier (`findPrimaryEncapsulation`), the bundle
validator/splitter (`validateBundleModules` / `validateManifestBundle`),
the deterministic sorter (`sortBundles`) and the orchestrator (`bundle`).
The TypeScript functions are embedded as pure Lean functions over explicit
data; JavaScript's stable `Array#sort` is embedded as a stable insertion
sort, and the three-element bucket sort inside the classifier as an
explicit stable descending sort of three lists.
-/

namespace Stencil

/-- Modelled from the spec: the `ENCAPSULATION` enumeration is declared in
`util/constants`, a file that is not among the sources; the spec fixes the
closed enumeration `None` (plain/global CSS), `Scoped`, `Shadow`. -/
inductive ENCAPSULATION where
  | NoEncapsulation
  | ScopedCss
  | ShadowDom
deriving DecidableEq

/-- Component metadata carried by a module file: its tag name, its style
encapsulation mode, and whether it declares any styles at all (the
truthiness of `stylesMeta` in the source). -/
structure CmpMeta where
  tagNameMeta : String
  encapsulation : ENCAPSULATION
  stylesMeta : Bool
deriving DecidableEq

/-- A compiled module record (`ModuleFile` in `util/interfaces`); only its
component metadata is read by the bundling core. -/
structure ModuleFile where
  cmpMeta : CmpMeta
deriving DecidableEq

/-- A manifest bundle: an ordered module list plus the placeholder for the
later-compiled module text, which the bundling core itself never fills. -/
structure ManifestBundle where
  moduleFiles : List ModuleFile
  compiledModuleText : String
deriving DecidableEq

/-- A user bundle declaration: an ordered list of component tag names
(`bundle.components` in the source). -/
structure Bundle where
  components : List String
deriving DecidableEq

/-- Diagnostic severity levels named by the spec (section 6). -/
inductive DiagLevel where
  | error
  | warn
  | info
deriving DecidableEq

/-- Modelled from the spec: diagnostics are records with a severity level
and a message (spec section 6); the remaining fields of the record shape
are never read by the bundling core. -/
structure Diagnostic where
  level : DiagLevel
  messageText : String
deriving DecidableEq

/-- Modelled from the spec: `buildError` from `compiler/util` (not among
the sources) appends and returns an error-level diagnostic whose
`messageText` the caller then assigns; embedded as the diagnostic built
from that final message. -/
def buildError (messageText : String) : Diagnostic :=
  { level := DiagLevel.error, messageText := messageText }

/-- The message assigned to the diagnostic for a declared tag with no
matching module (`bundle.ts` line 70). -/
def missingTagMessage (tag : String) : String :=
  "Component tag \"" ++ tag ++ "\" is defined in a bundle but no matching component was found within this app or its collections."

/-- `createManifestBundle` (`bundle.ts` lines 180-186): a fresh bundle
holding the given modules and an empty compiled-text placeholder. -/
def createManifestBundle (moduleFiles : List ModuleFile) : ManifestBundle :=
  { moduleFiles := moduleFiles, compiledModuleText := "" }

/-- One iteration of the tag loop in `getManifestBundles` (`bundle.ts`
lines 64-72): a matching module is appended to the accumulating module
list, a missing tag appends an error diagnostic instead. -/
def resolveTag (moduleFiles : List ModuleFile) (acc : List ModuleFile × List Diagnostic) (tag : String) : List ModuleFile × List Diagnostic :=
  match moduleFiles.find? (fun m => m.cmpMeta.tagNameMeta == tag) with
  | some cmpMeta => (acc.1 ++ [cmpMeta], acc.2)
  | none => (acc.1, acc.2 ++ [buildError (missingTagMessage tag)])

/-- One iteration of the declaration loop in `getManifestBundles`
(`bundle.ts` lines 61-77): resolve every tag of the declaration, then keep
the resulting bundle exactly when at least one tag resolved. -/
def resolveBundle (moduleFiles : List ModuleFile) (acc : List ManifestBundle × List Diagnostic) (b : Bundle) : List ManifestBundle × List Diagnostic :=
  let r := b.components.foldl (resolveTag moduleFiles) ([], acc.2)
  let manifestBundle := createManifestBundle r.1
  if manifestBundle.moduleFiles.length > 0 then
    (acc.1 ++ [manifestBundle], r.2)
  else
    (acc.1, r.2)

/-- `getManifestBundles` (`bundle.ts` lines 58-80): declarations with a
non-empty tag list are resolved tag by tag; a declaration contributes a
preliminary bundle exactly when at least one tag resolved. The mutated
diagnostics array is threaded explicitly and returned alongside. -/
def getManifestBundles (moduleFiles : List ModuleFile) (bundles : List Bundle) (diagnostics : List Diagnostic) : List ManifestBundle × List Diagnostic :=
  (bundles.filter (fun b => b.components.length != 0)).foldl
    (resolveBundle moduleFiles) ([], diagnostics)

/-- The stable descending-by-length sort that the JavaScript
`[plainCssCmps, scopedCssCmps, shadowCssCmps].sort(comparator)` performs on
its three-element array (`bundle.ts` lines 166-170): larger lists first,
equal lengths keep the original order. -/
def sort3Desc (a b c : List ModuleFile) : List (List ModuleFile) :=
  if b.length ≤ a.length then
    if c.length ≤ b.length then [a, b, c]
    else if c.length ≤ a.length then [a, c, b]
    else [c, a, b]
  else
    if c.length ≤ a.length then [b, a, c]
    else if c.length ≤ b.length then [b, c, a]
    else [c, b, a]

/-- The plain bucket of `findPrimaryEncapsulation` (`bundle.ts` line 161):
modules that are neither scoped nor shadow. -/
def plainCssCmps (moduleFiles : List ModuleFile) : List ModuleFile :=
  moduleFiles.filter (fun m =>
    m.cmpMeta.encapsulation != ENCAPSULATION.ScopedCss &&
      m.cmpMeta.encapsulation != ENCAPSULATION.ShadowDom)

/-- The scoped bucket of `findPrimaryEncapsulation` (`bundle.ts` line 162). -/
def scopedCssCmps (moduleFiles : List ModuleFile) : List ModuleFile :=
  moduleFiles.filter (fun m => m.cmpMeta.encapsulation == ENCAPSULATION.ScopedCss)

/-- The shadow bucket of `findPrimaryEncapsulation` (`bundle.ts` line 163). -/
def shadowCssCmps (moduleFiles : List ModuleFile) : List ModuleFile :=
  moduleFiles.filter (fun m => m.cmpMeta.encapsulation == ENCAPSULATION.ShadowDom)

/-- `findPrimaryEncapsulation` (`bundle.ts` lines 160-177): bucket the
modules into plain (neither scoped nor shadow), scoped and shadow, sort the
buckets by descending size, and return the encapsulation of the first
element of the winning bucket, or `none` when it is empty. -/
def findPrimaryEncapsulation (moduleFiles : List ModuleFile) : Option ENCAPSULATION :=
  match sort3Desc (plainCssCmps moduleFiles) (scopedCssCmps moduleFiles) (shadowCssCmps moduleFiles) with
  | [] => none
  | winner :: _ =>
    match winner with
    | [] => none
    | m :: _ => some m.cmpMeta.encapsulation

/-- The classification predicate of the splitter's walk (`bundle.ts` line
128): the module's mode equals the primary one, or it has no styles. -/
def isPrimaryModule (primaryEncapsulation : Option ENCAPSULATION) (m : ModuleFile) : Bool :=
  some m.cmpMeta.encapsulation == primaryEncapsulation || !m.cmpMeta.stylesMeta

/-- The splitter's `primaryCss` collection (`bundle.ts` lines 118,
126-131): modules whose mode matches the primary one, or with no styles. -/
def primaryCssOf (mods : List ModuleFile) : List ModuleFile :=
  mods.filter (isPrimaryModule (findPrimaryEncapsulation mods))

/-- The splitter's `scopedCss` collection (`bundle.ts` lines 121,
133-134). -/
def scopedCssOf (mods : List ModuleFile) : List ModuleFile :=
  mods.filter (fun m =>
    !isPrimaryModule (findPrimaryEncapsulation mods) m &&
      m.cmpMeta.encapsulation == ENCAPSULATION.ScopedCss)

/-- The splitter's `shadowCss` collection (`bundle.ts` lines 122,
136-137). -/
def shadowCssOf (mods : List ModuleFile) : List ModuleFile :=
  mods.filter (fun m =>
    !isPrimaryModule (findPrimaryEncapsulation mods) m &&
      !(m.cmpMeta.encapsulation == ENCAPSULATION.ScopedCss) &&
      m.cmpMeta.encapsulation == ENCAPSULATION.ShadowDom)

/-- The splitter's `plainCss` collection (`bundle.ts` lines 123,
139-140). -/
def plainCssOf (mods : List ModuleFile) : List ModuleFile :=
  mods.filter (fun m =>
    !isPrimaryModule (findPrimaryEncapsulation mods) m &&
      !(m.cmpMeta.encapsulation == ENCAPSULATION.ScopedCss) &&
      !(m.cmpMeta.encapsulation == ENCAPSULATION.ShadowDom))

/-- `validateManifestBundle` (`bundle.ts` lines 94-157): an empty bundle
emits nothing, a singleton is emitted unchanged, and otherwise the modules
are split into the primary group (emitted on the original bundle record)
and the scoped, shadow and plain overflow groups (each emitted as a fresh
bundle when non-empty, in that order). The if/else-if chain of the source's
single walk is rendered as filters whose conditions carry the accumulated
negations of the earlier branches. -/
def validateManifestBundle (validatedBundles : List ManifestBundle) (manifestBundle : ManifestBundle) : List ManifestBundle :=
  if manifestBundle.moduleFiles.length == 0 then
    validatedBundles
  else if manifestBundle.moduleFiles.length == 1 then
    validatedBundles ++ [manifestBundle]
  else
    validatedBundles
      ++ (if (primaryCssOf manifestBundle.moduleFiles).length != 0 then
            [{ manifestBundle with moduleFiles := primaryCssOf manifestBundle.moduleFiles }]
          else [])
      ++ (if (scopedCssOf manifestBundle.moduleFiles).length != 0 then
            [createManifestBundle (scopedCssOf manifestBundle.moduleFiles)]
          else [])
      ++ (if (shadowCssOf manifestBundle.moduleFiles).length != 0 then
            [createManifestBundle (shadowCssOf manifestBundle.moduleFiles)]
          else [])
      ++ (if (plainCssOf manifestBundle.moduleFiles).length != 0 then
            [createManifestBundle (plainCssOf manifestBundle.moduleFiles)]
          else [])

/-- `validateBundleModules` (`bundle.ts` lines 83-92): run the splitter
over every preliminary bundle, accumulating into one output list. -/
def validateBundleModules (manifestBundles : List ManifestBundle) : List ManifestBundle :=
  manifestBundles.foldl validateManifestBundle []

/-- The within-bundle order of `sortBundles` (`bundle.ts` lines 191-195):
modules compared by tag name; the comparator's zero on equal tags makes the
stable sort keep the original order there, which a stable insertion sort
with this non-strict relation reproduces exactly. -/
def modTagLe (a b : ModuleFile) : Prop :=
  a.cmpMeta.tagNameMeta ≤ b.cmpMeta.tagNameMeta

instance : DecidableRel modTagLe := fun a b =>
  inferInstanceAs (Decidable (a.cmpMeta.tagNameMeta ≤ b.cmpMeta.tagNameMeta))

instance : IsTotal ModuleFile modTagLe :=
  ⟨fun a b => le_total a.cmpMeta.tagNameMeta b.cmpMeta.tagNameMeta⟩

instance : IsTrans ModuleFile modTagLe :=
  ⟨fun _ _ _ h1 h2 => le_trans h1 h2⟩

/-- The sort key of the bundle-level comparator (`bundle.ts` lines
198-202): the tag name of the bundle's first module (`moduleFiles[0]`). On
an empty bundle the source comparator would fault; the key defaults to the
empty string there, a case the validator never produces (see the
nonemptiness theorems below). -/
def bundleKey (mb : ManifestBundle) : String :=
  match mb.moduleFiles with
  | [] => ""
  | m :: _ => m.cmpMeta.tagNameMeta

/-- The bundle-level order of `sortBundles`. -/
def bundleLe (a b : ManifestBundle) : Prop :=
  bundleKey a ≤ bundleKey b

instance : DecidableRel bundleLe := fun a b =>
  inferInstanceAs (Decidable (bundleKey a ≤ bundleKey b))

instance : IsTotal ManifestBundle bundleLe :=
  ⟨fun a b => le_total (bundleKey a) (bundleKey b)⟩

instance : IsTrans ManifestBundle bundleLe :=
  ⟨fun _ _ _ h1 h2 => le_trans h1 h2⟩

/-- `sortBundles` (`bundle.ts` lines 189-203): sort each bundle's modules
by tag name, then sort the bundles by the tag of their now-first module;
both JavaScript sorts are stable and are embedded as insertion sorts. -/
def sortBundles (manifestBundles : List ManifestBundle) : List ManifestBundle :=
  List.insertionSort bundleLe
    (manifestBundles.map (fun m =>
      { m with moduleFiles := List.insertionSort modTagLe m.moduleFiles }))

/-- The manifest slice the orchestrator reads (`ctx.manifest`). -/
structure Manifest where
  modulesFiles : List ModuleFile
  bundles : List Bundle
deriving DecidableEq

/-- The build-context slice the orchestrator reads and writes. -/
structure BuildContext where
  diagnostics : List Diagnostic
  manifest : Manifest
  manifestBundles : List ManifestBundle
deriving DecidableEq

/-- Modelled from the spec: `hasError` from `compiler/util` (not among the
sources) reports whether the diagnostics already hold a fatal, error-level
entry. -/
def hasError (diagnostics : List Diagnostic) : Bool :=
  diagnostics.any (fun d => d.level == DiagLevel.error)

/-- Modelled from the spec: `catchError` from `compiler/util` (not among
the sources) converts a caught exception into an appended error-level
diagnostic. -/
def catchError (diagnostics : List Diagnostic) (e : String) : List Diagnostic :=
  diagnostics ++ [{ level := DiagLevel.error, messageText := e }]

/-- The synchronous resolution, validation and sorting steps of the
orchestrator (`bundle.ts` lines 27-33). -/
def bundlePipeline (ctx : BuildContext) : BuildContext :=
  let r := getManifestBundles ctx.manifest.modulesFiles ctx.manifest.bundles ctx.diagnostics
  { ctx with
    diagnostics := r.2
    manifestBundles := sortBundles (validateBundleModules r.1) }

/-- The orchestrator `bundle` (`bundle.ts` lines 10-55). Modelled from the
spec where the sources stop: the awaited downstream collaborators
(dependent-component upgrade, style bundling, module bundling, bundle
generation), none of which are among the sources, are abstracted as one
state transformer that may throw; an exception escaping the try block is
caught at this boundary and converted into an error diagnostic. -/
def bundle (collaborators : BuildContext → Except String BuildContext) (ctx : BuildContext) : BuildContext :=
  if hasError ctx.diagnostics then ctx
  else
    match collaborators (bundlePipeline ctx) with
    | Except.ok ctx2 => ctx2
    | Except.error e =>
      { bundlePipeline ctx with
        diagnostics := catchError (bundlePipeline ctx).diagnostics e }

/-- Spec wording (section 4.2): the number of modules carrying one
encapsulation mode. -/
def countMode (mode : ENCAPSULATION) (moduleFiles : List ModuleFile) : Nat :=
  (moduleFiles.filter (fun m => m.cmpMeta.encapsulation == mode)).length

/-- Spec wording (section 4.2): the winning mode by descending vote count,
ties always preferring `None`, then `Scoped`, then `Shadow`. -/
def primaryOfCounts (p s sh : Nat) : ENCAPSULATION :=
  if s ≤ p ∧ sh ≤ p then ENCAPSULATION.NoEncapsulation
  else if sh ≤ s then ENCAPSULATION.ScopedCss
  else ENCAPSULATION.ShadowDom

/-- Spec wording (section 4.3): the primary group holds the modules whose
mode matches the primary one or that declare no styles at all. -/
def primaryGroup (primary : Option ENCAPSULATION) (mods : List ModuleFile) : List ModuleFile :=
  mods.filter (fun m => some m.cmpMeta.encapsulation == primary || !m.cmpMeta.stylesMeta)

/-- Spec wording (section 4.3): an overflow group holds only the styled
modules whose mode differs from the primary one and equals the group's
mode. -/
def overflowGroup (primary : Option ENCAPSULATION) (mode : ENCAPSULATION) (mods : List ModuleFile) : List ModuleFile :=
  mods.filter (fun m =>
    m.cmpMeta.stylesMeta && some m.cmpMeta.encapsulation != primary &&
      m.cmpMeta.encapsulation == mode)

/-- The modules a declaration resolves to, in declaration order. -/
def resolvedModules (moduleFiles : List ModuleFile) (b : Bundle) : List ModuleFile :=
  b.components.filterMap (fun tag =>
    moduleFiles.find? (fun m => m.cmpMeta.tagNameMeta == tag))

/-- The diagnostics a declaration emits: one per non-matching tag, in
declaration order. -/
def bundleDiags (moduleFiles : List ModuleFile) (b : Bundle) : List Diagnostic :=
  b.components.filterMap (fun tag =>
    match moduleFiles.find? (fun m => m.cmpMeta.tagNameMeta == tag) with
    | some _ => none
    | none => some (buildError (missingTagMessage tag)))

/-- Total module count across a bundle list. -/
def totalModules (manifestBundles : List ManifestBundle) : Nat :=
  (manifestBundles.map (fun mb => mb.moduleFiles.length)).sum

/-- A bundle satisfying the emitted-bundle invariant: non-empty, and all
its styled modules share one encapsulation mode. -/
def GoodBundle (mb : ManifestBundle) : Prop :=
  mb.moduleFiles ≠ [] ∧
    ∀ m1 ∈ mb.moduleFiles, ∀ m2 ∈ mb.moduleFiles,
      m1.cmpMeta.stylesMeta = true → m2.cmpMeta.stylesMeta = true →
        m1.cmpMeta.encapsulation = m2.cmpMeta.encapsulation

/-- Demo module: shadow-encapsulated with styles. -/
def demoShadowMod : ModuleFile :=
  { cmpMeta := { tagNameMeta := "a-btn", encapsulation := ENCAPSULATION.ShadowDom, stylesMeta := true } }

/-- Demo module: scoped-encapsulated with styles. -/
def demoScopedMod : ModuleFile :=
  { cmpMeta := { tagNameMeta := "a-card", encapsulation := ENCAPSULATION.ScopedCss, stylesMeta := true } }

/-- Demo module: plain mode, no styles. -/
def demoPlainMod : ModuleFile :=
  { cmpMeta := { tagNameMeta := "a-icon", encapsulation := ENCAPSULATION.NoEncapsulation, stylesMeta := false } }

/-- Demo preliminary bundle mixing all three modes (spec Scenario A). -/
def demoMixedBundle : ManifestBundle :=
  { moduleFiles := [demoShadowMod, demoScopedMod, demoPlainMod], compiledModuleText := "" }

/-! ### Resolver characterization -/

lemma resolveTag_foldl (moduleFiles : List ModuleFile) (cs : List String) (acc : List ModuleFile) (ds : List Diagnostic) :
    cs.foldl (resolveTag moduleFiles) (acc, ds) =
      (acc ++ cs.filterMap (fun tag =>
          moduleFiles.find? (fun m => m.cmpMeta.tagNameMeta == tag)),
        ds ++ cs.filterMap (fun tag =>
          match moduleFiles.find? (fun m => m.cmpMeta.tagNameMeta == tag) with
          | some _ => none
          | none => some (buildError (missingTagMessage tag)))) := by
  induction cs generalizing acc ds with
  | nil => simp
  | cons tag rest ih =>
    simp only [List.foldl_cons, List.filterMap_cons]
    cases h : moduleFiles.find? (fun m => m.cmpMeta.tagNameMeta == tag) with
    | some m =>
      simp only [resolveTag, h, ih, List.append_assoc, List.singleton_append]
    | none =>
      simp only [resolveTag, h, ih, List.append_assoc, List.singleton_append]

lemma resolveBundle_foldl (moduleFiles : List ModuleFile) (l : List Bundle) (accB : List ManifestBundle) (ds : List Diagnostic) :
    l.foldl (resolveBundle moduleFiles) (accB, ds) =
      (accB ++ l.filterMap (fun b =>
          if (resolvedModules moduleFiles b).length > 0 then
            some (createManifestBundle (resolvedModules moduleFiles b))
          else none),
        ds ++ l.flatMap (bundleDiags moduleFiles)) := by
  induction l generalizing accB ds with
  | nil => simp
  | cons b rest ih =>
    simp only [List.foldl_cons, List.filterMap_cons, List.flatMap_cons]
    have hstep : resolveBundle moduleFiles (accB, ds) b =
        (if (resolvedModules moduleFiles b).length > 0 then
          (accB ++ [createManifestBundle (resolvedModules moduleFiles b)],
            ds ++ bundleDiags moduleFiles b)
        else (accB, ds ++ bundleDiags moduleFiles b)) := by
      simp only [resolveBundle, resolveTag_foldl, List.nil_append, createManifestBundle,
        resolvedModules, bundleDiags]
    rw [hstep]
    by_cases hr : (resolvedModules moduleFiles b).length > 0
    · rw [if_pos hr, if_pos hr, ih]
      simp [List.append_assoc]
    · rw [if_neg hr, if_neg hr, ih]
      simp [List.append_assoc]

lemma getManifestBundles_fst (moduleFiles : List ModuleFile) (bundles : List Bundle) (diagnostics : List Diagnostic) :
    (getManifestBundles moduleFiles bundles diagnostics).1 =
      (bundles.filter (fun b => b.components.length != 0)).filterMap (fun b =>
        if (resolvedModules moduleFiles b).length > 0 then
          some (createManifestBundle (resolvedModules moduleFiles b))
        else none) := by
  simp [getManifestBundles, resolveBundle_foldl]

/-- C6: each tag of a declaration that matches a module contributes that
module to the declaration's preliminary bundle in declaration order
(`filterMap` over the declaration's tag list), and every declaration with
at least one match yields exactly one preliminary bundle. -/
theorem getManifestBundles_resolution (moduleFiles : List ModuleFile) (bundles : List Bundle) (diagnostics : List Diagnostic) :
    (getManifestBundles moduleFiles bundles diagnostics).1 =
      (bundles.filter (fun b => b.components.length != 0)).filterMap (fun b =>
        if (resolvedModules moduleFiles b).length > 0 then
          some (createManifestBundle (resolvedModules moduleFiles b))
        else none) :=
  getManifestBundles_fst moduleFiles bundles diagnostics

/-- C7: the resolver appends exactly one error-level diagnostic per
non-matching tag, in declaration order and across all declarations with no
early return; that diagnostic's message names the missing tag; empty
declarations and declarations resolving to zero modules contribute no
diagnostics of their own. -/
theorem getManifestBundles_diagnostics_spec (moduleFiles : List ModuleFile) (bundles : List Bundle) (diagnostics : List Diagnostic) :
    (getManifestBundles moduleFiles bundles diagnostics).2 =
      diagnostics ++
        (bundles.filter (fun b => b.components.length != 0)).flatMap
          (bundleDiags moduleFiles) ∧
    (∀ tag, (buildError (missingTagMessage tag)).level = DiagLevel.error) ∧
    (∀ tag, ∃ pre post,
      (buildError (missingTagMessage tag)).messageText = pre ++ tag ++ post) := by
  refine ⟨?_, fun tag => rfl, fun tag => ⟨"Component tag \"",
    "\" is defined in a bundle but no matching component was found within this app or its collections.",
    rfl⟩⟩
  simp [getManifestBundles, resolveBundle_foldl]

/-! ### Validator partition and invariant -/

lemma enc_not_scoped_shadow (e : ENCAPSULATION)
    (h1 : (e == ENCAPSULATION.ScopedCss) = false)
    (h2 : (e == ENCAPSULATION.ShadowDom) = false) :
    e = ENCAPSULATION.NoEncapsulation := by
  cases e <;> simp_all

lemma four_filter_partition (p : Option ENCAPSULATION) (l : List ModuleFile) :
    (l.filter (isPrimaryModule p)).length +
      (l.filter (fun m => !isPrimaryModule p m &&
        m.cmpMeta.encapsulation == ENCAPSULATION.ScopedCss)).length +
      (l.filter (fun m => !isPrimaryModule p m &&
        !(m.cmpMeta.encapsulation == ENCAPSULATION.ScopedCss) &&
        m.cmpMeta.encapsulation == ENCAPSULATION.ShadowDom)).length +
      (l.filter (fun m => !isPrimaryModule p m &&
        !(m.cmpMeta.encapsulation == ENCAPSULATION.ScopedCss) &&
        !(m.cmpMeta.encapsulation == ENCAPSULATION.ShadowDom))).length = l.length := by
  induction l with
  | nil => rfl
  | cons m rest ih =>
    simp only [List.filter_cons, List.length_cons]
    cases h1 : isPrimaryModule p m <;> cases h2 : m.cmpMeta.encapsulation <;>
      simp [h1, h2] <;> omega

lemma four_group_partition (mods : List ModuleFile) :
    (primaryCssOf mods).length + (scopedCssOf mods).length +
      (shadowCssOf mods).length + (plainCssOf mods).length = mods.length :=
  four_filter_partition (findPrimaryEncapsulation mods) mods

lemma totalModules_append (a b : List ManifestBundle) :
    totalModules (a ++ b) = totalModules a + totalModules b := by
  simp [totalModules]

lemma totalModules_emitIf (g : List ModuleFile) (s : String) :
    totalModules
      (if g.length != 0 then [{ moduleFiles := g, compiledModuleText := s }] else []) =
      g.length := by
  by_cases h : g.length = 0 <;> simp [totalModules, h]

lemma totalModules_emitIf_create (g : List ModuleFile) :
    totalModules (if g.length != 0 then [createManifestBundle g] else []) = g.length := by
  by_cases h : g.length = 0 <;> simp [totalModules, createManifestBundle, h]

lemma validateManifestBundle_total (acc : List ManifestBundle) (mb : ManifestBundle) :
    totalModules (validateManifestBundle acc mb) =
      totalModules acc + mb.moduleFiles.length := by
  unfold validateManifestBundle
  by_cases h0 : mb.moduleFiles.length == 0
  · rw [if_pos h0]
    have h0' : mb.moduleFiles.length = 0 := by simpa using h0
    omega
  · rw [if_neg h0]
    by_cases h1 : mb.moduleFiles.length == 1
    · rw [if_pos h1]
      have h1' : mb.moduleFiles.length = 1 := by simpa using h1
      simp [totalModules, h1']
    · rw [if_neg h1]
      have hpart := four_group_partition mb.moduleFiles
      rw [totalModules_append, totalModules_append, totalModules_append, totalModules_append,
        totalModules_emitIf, totalModules_emitIf_create,
        totalModules_emitIf_create, totalModules_emitIf_create]
      omega

lemma validateBundleModules_total_foldl (l : List ManifestBundle) (acc : List ManifestBundle) :
    totalModules (l.foldl validateManifestBundle acc) =
      totalModules acc + totalModules l := by
  induction l generalizing acc with
  | nil => simp [totalModules]
  | cons mb rest ih =>
    rw [List.foldl_cons, ih, validateManifestBundle_total]
    simp only [totalModules, List.map_cons, List.sum_cons]
    omega

/-- C2: validation neither drops nor duplicates modules; the total module
count across all emitted bundles equals the total across the preliminary
bundles. -/
theorem validator_conserves_modules (manifestBundles : List ManifestBundle) :
    totalModules (validateBundleModules manifestBundles) = totalModules manifestBundles := by
  unfold validateBundleModules
  rw [validateBundleModules_total_foldl]
  simp [totalModules]

lemma mem_emitIf (g : List ModuleFile) (b mb' : ManifestBundle)
    (h : mb' ∈ (if g.length != 0 then [b] else [])) : mb' = b ∧ g ≠ [] := by
  by_cases hg : g.length = 0
  · simp [hg] at h
  · rw [if_pos (by simpa using hg)] at h
    exact ⟨List.mem_singleton.mp h, fun hnil => hg (by simp [hnil])⟩

lemma good_filter_primary (p : Option ENCAPSULATION) (mods : List ModuleFile)
    (mb' : ManifestBundle)
    (hmf : mb'.moduleFiles = mods.filter (isPrimaryModule p))
    (hne : mods.filter (isPrimaryModule p) ≠ []) : GoodBundle mb' := by
  refine ⟨by rw [hmf]; exact hne, ?_⟩
  intro m1 hm1 m2 hm2 hs1 hs2
  rw [hmf] at hm1 hm2
  have p1 := List.of_mem_filter hm1
  have p2 := List.of_mem_filter hm2
  simp only [isPrimaryModule, hs1, hs2, Bool.not_true, Bool.or_false] at p1 p2
  have e1 : some m1.cmpMeta.encapsulation = p := by simpa using p1
  have e2 : some m2.cmpMeta.encapsulation = p := by simpa using p2
  have := e1.trans e2.symm
  exact Option.some_injective _ this

lemma good_filter_mode (pred : ModuleFile → Bool) (mode : ENCAPSULATION)
    (mods : List ModuleFile) (mb' : ManifestBundle)
    (hmf : mb'.moduleFiles = mods.filter pred)
    (hne : mods.filter pred ≠ [])
    (hmode : ∀ m, pred m = true → m.cmpMeta.encapsulation = mode) : GoodBundle mb' := by
  refine ⟨by rw [hmf]; exact hne, ?_⟩
  intro m1 hm1 m2 hm2 _ _
  rw [hmf] at hm1 hm2
  rw [hmode m1 (List.of_mem_filter hm1), hmode m2 (List.of_mem_filter hm2)]

lemma validateManifestBundle_mem (acc : List ManifestBundle) (mb mb' : ManifestBundle)
    (h : mb' ∈ validateManifestBundle acc mb) : mb' ∈ acc ∨ GoodBundle mb' := by
  unfold validateManifestBundle at h
  by_cases h0 : mb.moduleFiles.length == 0
  · rw [if_pos h0] at h
    exact Or.inl h
  · rw [if_neg h0] at h
    by_cases h1 : mb.moduleFiles.length == 1
    · rw [if_pos h1] at h
      rcases List.mem_append.mp h with hl | hr
      · exact Or.inl hl
      · right
        have hb := List.mem_singleton.mp hr
        subst hb
        have hlen : mb'.moduleFiles.length = 1 := by simpa using h1
        obtain ⟨x, hx⟩ := List.length_eq_one.mp hlen
        refine ⟨by simp [hx], ?_⟩
        intro m1 hm1 m2 hm2 _ _
        rw [hx] at hm1 hm2
        rw [List.mem_singleton.mp hm1, List.mem_singleton.mp hm2]
    · rw [if_neg h1] at h
      simp only [List.append_assoc, List.mem_append] at h
      rcases h with hacc | hA | hB | hC | hD
      · exact Or.inl hacc
      · right
        obtain ⟨hb, hne⟩ := mem_emitIf _ _ _ hA
        subst hb
        exact good_filter_primary _ _ _ rfl hne
      · right
        obtain ⟨hb, hne⟩ := mem_emitIf _ _ _ hB
        subst hb
        refine good_filter_mode _ ENCAPSULATION.ScopedCss _ _ rfl hne ?_
        intro m hm
        simp only [Bool.and_eq_true, beq_iff_eq] at hm
        exact hm.2
      · right
        obtain ⟨hb, hne⟩ := mem_emitIf _ _ _ hC
        subst hb
        refine good_filter_mode _ ENCAPSULATION.ShadowDom _ _ rfl hne ?_
        intro m hm
        simp only [Bool.and_eq_true, beq_iff_eq] at hm
        exact hm.2
      · right
        obtain ⟨hb, hne⟩ := mem_emitIf _ _ _ hD
        subst hb
        refine good_filter_mode _ ENCAPSULATION.NoEncapsulation _ _ rfl hne ?_
        intro m hm
        simp only [Bool.and_eq_true, Bool.not_eq_true'] at hm
        exact enc_not_scoped_shadow _ hm.1.2 hm.2

lemma validateBundleModules_foldl_good (l : List ManifestBundle)
    (acc : List ManifestBundle) (mb' : ManifestBundle)
    (h : mb' ∈ l.foldl validateManifestBundle acc) : mb' ∈ acc ∨ GoodBundle mb' := by
  induction l generalizing acc with
  | nil => exact Or.inl h
  | cons mb rest ih =>
    rcases ih (validateManifestBundle acc mb) h with hmem | hgood
    · exact validateManifestBundle_mem acc mb mb' hmem
    · exact Or.inr hgood

/-- C1: every bundle emitted by `validateBundleModules` is non-empty and
all its styled modules share one encapsulation mode; and each single
`validateManifestBundle` call only ever appends such bundles to its
accumulator. -/
theorem validator_invariant (manifestBundles : List ManifestBundle) :
    (∀ mb ∈ validateBundleModules manifestBundles, GoodBundle mb) ∧
    (∀ acc mb mb', mb' ∈ validateManifestBundle acc mb → mb' ∈ acc ∨ GoodBundle mb') := by
  constructor
  · intro mb h
    rcases validateBundleModules_foldl_good manifestBundles [] mb h with hmem | hgood
    · exact absurd hmem (List.not_mem_nil mb)
    · exact hgood
  · exact fun acc mb mb' h => validateManifestBundle_mem acc mb mb' h

/-- Witness for C1: the plain-mode bundle split out of the mixed demo
bundle satisfies the emitted-bundle invariant. -/
theorem validator_invariant_witness :
    GoodBundle { moduleFiles := [demoPlainMod], compiledModuleText := "" } :=
  (validator_invariant [demoMixedBundle]).1
    { moduleFiles := [demoPlainMod], compiledModuleText := "" } (by decide)

/-! ### Classifier characterization -/

lemma plainCssCmps_eq_filter_none (l : List ModuleFile) :
    plainCssCmps l =
      l.filter (fun m => m.cmpMeta.encapsulation == ENCAPSULATION.NoEncapsulation) := by
  apply List.filter_congr
  intro m _
  rcases m with ⟨⟨t, e, s⟩⟩
  cases e <;> rfl

lemma countMode_partition (l : List ModuleFile) :
    countMode ENCAPSULATION.NoEncapsulation l + countMode ENCAPSULATION.ScopedCss l +
      countMode ENCAPSULATION.ShadowDom l = l.length := by
  induction l with
  | nil => rfl
  | cons m rest ih =>
    simp only [countMode, List.filter_cons, List.length_cons] at *
    cases h : m.cmpMeta.encapsulation <;> simp [h] <;> omega

lemma plainCssCmps_length (l : List ModuleFile) :
    (plainCssCmps l).length = countMode ENCAPSULATION.NoEncapsulation l := by
  rw [plainCssCmps_eq_filter_none]
  rfl

lemma findPrimaryEncapsulation_eq (l : List ModuleFile) (h : l ≠ []) :
    findPrimaryEncapsulation l =
      some (primaryOfCounts (countMode ENCAPSULATION.NoEncapsulation l)
        (countMode ENCAPSULATION.ScopedCss l) (countMode ENCAPSULATION.ShadowDom l)) := by
  have hpl := plainCssCmps_length l
  have hsc : (scopedCssCmps l).length = countMode ENCAPSULATION.ScopedCss l := rfl
  have hsh : (shadowCssCmps l).length = countMode ENCAPSULATION.ShadowDom l := rfl
  have hsum := countMode_partition l
  have hlen : 0 < l.length := List.length_pos.mpr h
  have hplainmode : ∀ m ∈ plainCssCmps l,
      m.cmpMeta.encapsulation = ENCAPSULATION.NoEncapsulation := by
    intro m hm
    rw [plainCssCmps_eq_filter_none] at hm
    simpa using List.of_mem_filter hm
  have hscopedmode : ∀ m ∈ scopedCssCmps l,
      m.cmpMeta.encapsulation = ENCAPSULATION.ScopedCss := by
    intro m hm
    simpa using List.of_mem_filter hm
  have hshadowmode : ∀ m ∈ shadowCssCmps l,
      m.cmpMeta.encapsulation = ENCAPSULATION.ShadowDom := by
    intro m hm
    simpa using List.of_mem_filter hm
  unfold findPrimaryEncapsulation sort3Desc
  by_cases h1 : (scopedCssCmps l).length ≤ (plainCssCmps l).length
  · rw [if_pos h1]
    by_cases h2 : (shadowCssCmps l).length ≤ (scopedCssCmps l).length
    · rw [if_pos h2]
      cases hw : plainCssCmps l with
      | nil =>
        exfalso
        have hzero := congrArg List.length hw
        rw [List.length_nil] at hzero
        omega
      | cons m rest =>
        have hmode := hplainmode m (by rw [hw]; exact List.mem_cons_self m rest)
        simp only [hw, hmode]
        unfold primaryOfCounts
        rw [if_pos (by omega)]
    · rw [if_neg h2]
      by_cases h3 : (shadowCssCmps l).length ≤ (plainCssCmps l).length
      · rw [if_pos h3]
        cases hw : plainCssCmps l with
        | nil =>
          exfalso
          have hzero := congrArg List.length hw
          rw [List.length_nil] at hzero
          omega
        | cons m rest =>
          have hmode := hplainmode m (by rw [hw]; exact List.mem_cons_self m rest)
          simp only [hw, hmode]
          unfold primaryOfCounts
          rw [if_pos (by omega)]
      · rw [if_neg h3]
        cases hw : shadowCssCmps l with
        | nil =>
          exfalso
          have hzero := congrArg List.length hw
          rw [List.length_nil] at hzero
          omega
        | cons m rest =>
          have hmode := hshadowmode m (by rw [hw]; exact List.mem_cons_self m rest)
          simp only [hw, hmode]
          unfold primaryOfCounts
          rw [if_neg (by omega), if_neg (by omega)]
  · rw [if_neg h1]
    by_cases h3 : (shadowCssCmps l).length ≤ (plainCssCmps l).length
    · rw [if_pos h3]
      cases hw : scopedCssCmps l with
      | nil =>
        exfalso
        have hzero := congrArg List.length hw
        rw [List.length_nil] at hzero
        omega
      | cons m rest =>
        have hmode := hscopedmode m (by rw [hw]; exact List.mem_cons_self m rest)
        simp only [hw, hmode]
        unfold primaryOfCounts
        rw [if_neg (by omega), if_pos (by omega)]
    · rw [if_neg h3]
      by_cases h4 : (shadowCssCmps l).length ≤ (scopedCssCmps l).length
      · rw [if_pos h4]
        cases hw : scopedCssCmps l with
        | nil =>
          exfalso
          have hzero := congrArg List.length hw
          rw [List.length_nil] at hzero
          omega
        | cons m rest =>
          have hmode := hscopedmode m (by rw [hw]; exact List.mem_cons_self m rest)
          simp only [hw, hmode]
          unfold primaryOfCounts
          rw [if_neg (by omega), if_pos (by omega)]
      · rw [if_neg h4]
        cases hw : shadowCssCmps l with
        | nil =>
          exfalso
          have hzero := congrArg List.length hw
          rw [List.length_nil] at hzero
          omega
        | cons m rest =>
          have hmode := hshadowmode m (by rw [hw]; exact List.mem_cons_self m rest)
          simp only [hw, hmode]
          unfold primaryOfCounts
          rw [if_neg (by omega), if_neg (by omega)]

/-- C3: on a non-empty module list the classifier returns the mode of the
largest bucket, ties resolved by the fixed preference `None`, then
`Scoped`, then `Shadow` (the stable three-element bucket sort realises
exactly that); on the empty list it returns `none`. -/
theorem findPrimaryEncapsulation_spec (l : List ModuleFile) :
    (l = [] → findPrimaryEncapsulation l = none) ∧
    (l ≠ [] → findPrimaryEncapsulation l =
      some (primaryOfCounts (countMode ENCAPSULATION.NoEncapsulation l)
        (countMode ENCAPSULATION.ScopedCss l) (countMode ENCAPSULATION.ShadowDom l))) := by
  constructor
  · intro h
    subst h
    rfl
  · exact findPrimaryEncapsulation_eq l

/-- Witness for C3: a singleton shadow module makes shadow the primary
mode. -/
theorem findPrimaryEncapsulation_spec_witness :
    findPrimaryEncapsulation [demoShadowMod] = some ENCAPSULATION.ShadowDom :=
  ((findPrimaryEncapsulation_spec [demoShadowMod]).2 (by decide)).trans (by decide)

/-! ### Splitter characterization -/

lemma countMode_pos_exists (mode : ENCAPSULATION) (l : List ModuleFile)
    (h : 0 < countMode mode l) : ∃ m ∈ l, m.cmpMeta.encapsulation = mode := by
  have hne : l.filter (fun m => m.cmpMeta.encapsulation == mode) ≠ [] := by
    intro hnil
    rw [countMode, hnil] at h
    exact Nat.lt_irrefl 0 h
  obtain ⟨m, hm⟩ := List.exists_mem_of_ne_nil _ hne
  exact ⟨m, (List.mem_filter.mp hm).1, by simpa using (List.mem_filter.mp hm).2⟩

lemma primaryOfCounts_count_pos (l : List ModuleFile) (h : l ≠ []) :
    0 < countMode (primaryOfCounts (countMode ENCAPSULATION.NoEncapsulation l)
      (countMode ENCAPSULATION.ScopedCss l) (countMode ENCAPSULATION.ShadowDom l)) l := by
  have hsum := countMode_partition l
  have hlen : 0 < l.length := List.length_pos.mpr h
  unfold primaryOfCounts
  split_ifs with hc1 hc2 <;> omega

lemma findPrimary_exists_mem (l : List ModuleFile) (h : l ≠ []) :
    ∃ m ∈ l, findPrimaryEncapsulation l = some m.cmpMeta.encapsulation := by
  obtain ⟨m, hm, hmode⟩ :=
    countMode_pos_exists _ l (primaryOfCounts_count_pos l h)
  exact ⟨m, hm, by rw [findPrimaryEncapsulation_eq l h, hmode]⟩

lemma primaryCssOf_eq_primaryGroup (mods : List ModuleFile) :
    primaryCssOf mods = primaryGroup (findPrimaryEncapsulation mods) mods := rfl

lemma scopedCssOf_eq_overflow (mods : List ModuleFile) :
    scopedCssOf mods =
      overflowGroup (findPrimaryEncapsulation mods) ENCAPSULATION.ScopedCss mods := by
  apply List.filter_congr
  intro m _
  rcases m with ⟨⟨t, e, s⟩⟩
  rcases findPrimaryEncapsulation mods with _ | pe
  · cases e <;> cases s <;> rfl
  · cases pe <;> cases e <;> cases s <;> rfl

lemma shadowCssOf_eq_overflow (mods : List ModuleFile) :
    shadowCssOf mods =
      overflowGroup (findPrimaryEncapsulation mods) ENCAPSULATION.ShadowDom mods := by
  apply List.filter_congr
  intro m _
  rcases m with ⟨⟨t, e, s⟩⟩
  rcases findPrimaryEncapsulation mods with _ | pe
  · cases e <;> cases s <;> rfl
  · cases pe <;> cases e <;> cases s <;> rfl

lemma plainCssOf_eq_overflow (mods : List ModuleFile) :
    plainCssOf mods =
      overflowGroup (findPrimaryEncapsulation mods) ENCAPSULATION.NoEncapsulation mods := by
  apply List.filter_congr
  intro m _
  rcases m with ⟨⟨t, e, s⟩⟩
  rcases findPrimaryEncapsulation mods with _ | pe
  · cases e <;> cases s <;> rfl
  · cases pe <;> cases e <;> cases s <;> rfl

lemma primaryCssOf_ne_nil (mods : List ModuleFile) (h : mods ≠ []) :
    primaryCssOf mods ≠ [] := by
  obtain ⟨m, hm, hmode⟩ := findPrimary_exists_mem mods h
  intro hnil
  have hmem : m ∈ primaryCssOf mods := by
    apply List.mem_filter.mpr
    exact ⟨hm, by simp [isPrimaryModule, hmode]⟩
  rw [hnil] at hmem
  exact absurd hmem (List.not_mem_nil m)

/-- C4: the splitter emits nothing for an empty bundle and a singleton
bundle unchanged; otherwise it emits first the primary group — the modules
matching the primary mode together with every styleless module, always
non-empty, carried on the original bundle record — and then each non-empty
overflow group as a brand-new bundle in the fixed order scoped, shadow,
plain. -/
theorem validateManifestBundle_split_spec (acc : List ManifestBundle) (mb : ManifestBundle) :
    (mb.moduleFiles = [] → validateManifestBundle acc mb = acc) ∧
    (mb.moduleFiles.length = 1 → validateManifestBundle acc mb = acc ++ [mb]) ∧
    (2 ≤ mb.moduleFiles.length →
      validateManifestBundle acc mb =
        acc ++ [{ mb with
                  moduleFiles :=
                    primaryGroup (findPrimaryEncapsulation mb.moduleFiles) mb.moduleFiles }]
          ++ (if (overflowGroup (findPrimaryEncapsulation mb.moduleFiles)
                ENCAPSULATION.ScopedCss mb.moduleFiles).length != 0 then
              [createManifestBundle (overflowGroup (findPrimaryEncapsulation mb.moduleFiles)
                ENCAPSULATION.ScopedCss mb.moduleFiles)]
            else [])
          ++ (if (overflowGroup (findPrimaryEncapsulation mb.moduleFiles)
                ENCAPSULATION.ShadowDom mb.moduleFiles).length != 0 then
              [createManifestBundle (overflowGroup (findPrimaryEncapsulation mb.moduleFiles)
                ENCAPSULATION.ShadowDom mb.moduleFiles)]
            else [])
          ++ (if (overflowGroup (findPrimaryEncapsulation mb.moduleFiles)
                ENCAPSULATION.NoEncapsulation mb.moduleFiles).length != 0 then
              [createManifestBundle (overflowGroup (findPrimaryEncapsulation mb.moduleFiles)
                ENCAPSULATION.NoEncapsulation mb.moduleFiles)]
            else []) ∧
      primaryGroup (findPrimaryEncapsulation mb.moduleFiles) mb.moduleFiles ≠ [] ∧
      (∀ m ∈ mb.moduleFiles, m.cmpMeta.stylesMeta = false →
        m ∈ primaryGroup (findPrimaryEncapsulation mb.moduleFiles) mb.moduleFiles)) := by
  refine ⟨?_, ?_, ?_⟩
  · intro h
    unfold validateManifestBundle
    rw [if_pos (by simp [h])]
  · intro h
    unfold validateManifestBundle
    rw [if_neg (by simp [h]), if_pos (by simp [h])]
  · intro h2
    have hne : mb.moduleFiles ≠ [] := by
      intro hnil
      rw [hnil] at h2
      simp at h2
    have hprim := primaryCssOf_ne_nil mb.moduleFiles hne
    rw [primaryCssOf_eq_primaryGroup] at hprim
    refine ⟨?_, hprim, ?_⟩
    · unfold validateManifestBundle
      rw [if_neg (by simp only [beq_iff_eq]; omega),
        if_neg (by simp only [beq_iff_eq]; omega)]
      rw [primaryCssOf_eq_primaryGroup, scopedCssOf_eq_overflow,
        shadowCssOf_eq_overflow, plainCssOf_eq_overflow]
      rw [if_pos (by
        have hp := List.length_pos.mpr hprim
        simp only [bne_iff_ne, ne_eq]
        omega)]
    · intro m hm hs
      apply List.mem_filter.mpr
      exact ⟨hm, by simp [hs]⟩

/-- Witness for C4: the mixed demo bundle splits into its primary group
followed by the scoped and shadow overflow bundles. -/
theorem validateManifestBundle_split_spec_witness :
    validateManifestBundle [] demoMixedBundle =
      [] ++ [{ demoMixedBundle with
               moduleFiles :=
                 primaryGroup (findPrimaryEncapsulation demoMixedBundle.moduleFiles) demoMixedBundle.moduleFiles }]
        ++ (if (overflowGroup (findPrimaryEncapsulation demoMixedBundle.moduleFiles)
              ENCAPSULATION.ScopedCss demoMixedBundle.moduleFiles).length != 0 then
            [createManifestBundle (overflowGroup (findPrimaryEncapsulation demoMixedBundle.moduleFiles)
              ENCAPSULATION.ScopedCss demoMixedBundle.moduleFiles)]
          else [])
        ++ (if (overflowGroup (findPrimaryEncapsulation demoMixedBundle.moduleFiles)
              ENCAPSULATION.ShadowDom demoMixedBundle.moduleFiles).length != 0 then
            [createManifestBundle (overflowGroup (findPrimaryEncapsulation demoMixedBundle.moduleFiles)
              ENCAPSULATION.ShadowDom demoMixedBundle.moduleFiles)]
          else [])
        ++ (if (overflowGroup (findPrimaryEncapsulation demoMixedBundle.moduleFiles)
              ENCAPSULATION.NoEncapsulation demoMixedBundle.moduleFiles).length != 0 then
            [createManifestBundle (overflowGroup (findPrimaryEncapsulation demoMixedBundle.moduleFiles)
              ENCAPSULATION.NoEncapsulation demoMixedBundle.moduleFiles)]
          else []) ∧
      primaryGroup (findPrimaryEncapsulation demoMixedBundle.moduleFiles) demoMixedBundle.moduleFiles ≠ [] ∧
      (∀ m ∈ demoMixedBundle.moduleFiles, m.cmpMeta.stylesMeta = false →
        m ∈ primaryGroup (findPrimaryEncapsulation demoMixedBundle.moduleFiles) demoMixedBundle.moduleFiles) :=
  (validateManifestBundle_split_spec [] demoMixedBundle).2.2 (by decide)

/-! ### Sorter characterization -/

lemma sortBundles_mem (bs : List ManifestBundle) (mb : ManifestBundle)
    (h : mb ∈ sortBundles bs) :
    ∃ v ∈ bs, mb = { v with moduleFiles := List.insertionSort modTagLe v.moduleFiles } := by
  have hmem := (List.perm_insertionSort bundleLe
    (bs.map (fun m => { m with moduleFiles := List.insertionSort modTagLe m.moduleFiles }))).mem_iff.mp h
  obtain ⟨v, hv, heq⟩ := List.mem_map.mp hmem
  exact ⟨v, hv, heq.symm⟩

lemma sortBundles_mem_sorted (bs : List ManifestBundle) (mb : ManifestBundle)
    (h : mb ∈ sortBundles bs) : List.Sorted modTagLe mb.moduleFiles := by
  obtain ⟨v, _, heq⟩ := sortBundles_mem bs mb h
  rw [heq]
  exact List.sorted_insertionSort modTagLe v.moduleFiles

/-- C5: sorting loses nothing — the total module count is unchanged and
the family of bundle-membership multisets is merely permuted — while every
output bundle's modules are ordered by tag name and the bundles themselves
are ordered by the tag name of their now-first module. -/
theorem sortBundles_spec (bs : List ManifestBundle) :
    totalModules (sortBundles bs) = totalModules bs ∧
    List.Perm ((sortBundles bs).map (fun mb => (mb.moduleFiles : Multiset ModuleFile)))
      (bs.map (fun mb => (mb.moduleFiles : Multiset ModuleFile))) ∧
    (∀ mb ∈ sortBundles bs, List.Sorted modTagLe mb.moduleFiles) ∧
    List.Sorted bundleLe (sortBundles bs) := by
  have hperm := List.perm_insertionSort bundleLe
    (bs.map (fun m => { m with moduleFiles := List.insertionSort modTagLe m.moduleFiles }))
  refine ⟨?_, ?_, fun mb h => sortBundles_mem_sorted bs mb h,
    List.sorted_insertionSort bundleLe _⟩
  · have h1 := (hperm.map (fun mb => mb.moduleFiles.length)).sum_eq
    have h2 : ((bs.map (fun m =>
        { m with moduleFiles := List.insertionSort modTagLe m.moduleFiles })).map
          (fun mb => mb.moduleFiles.length)) =
        bs.map (fun mb => mb.moduleFiles.length) := by
      rw [List.map_map]
      apply List.map_congr_left
      intro v _
      simp [(List.perm_insertionSort modTagLe v.moduleFiles).length_eq]
    unfold totalModules sortBundles
    rw [h1, h2]
  · have h1 := hperm.map (fun mb => (mb.moduleFiles : Multiset ModuleFile))
    have h2 : ((bs.map (fun m =>
        { m with moduleFiles := List.insertionSort modTagLe m.moduleFiles })).map
          (fun mb => (mb.moduleFiles : Multiset ModuleFile))) =
        bs.map (fun mb => (mb.moduleFiles : Multiset ModuleFile)) := by
      rw [List.map_map]
      apply List.map_congr_left
      intro v _
      simp only [Function.comp]
      exact Multiset.coe_eq_coe.mpr (List.perm_insertionSort modTagLe v.moduleFiles)
    rw [← h2]
    exact h1

/-- Witness for C5: the sorted demo bundle's module list is ordered. -/
theorem sortBundles_spec_witness :
    List.Sorted modTagLe (createManifestBundle [demoPlainMod]).moduleFiles :=
  (sortBundles_spec [createManifestBundle [demoPlainMod]]).2.2.1
    (createManifestBundle [demoPlainMod]) (by decide)

/-- C8: sorting an already-sorted bundle list yields an identical list. -/
theorem sortBundles_idempotent (bs : List ManifestBundle) :
    sortBundles (sortBundles bs) = sortBundles bs := by
  have hmap : (sortBundles bs).map (fun m =>
      { m with moduleFiles := List.insertionSort modTagLe m.moduleFiles }) = sortBundles bs := by
    have hid : ∀ mb ∈ sortBundles bs,
        { mb with moduleFiles := List.insertionSort modTagLe mb.moduleFiles } = mb := by
      intro mb hmb
      rw [List.Sorted.insertionSort_eq (sortBundles_mem_sorted bs mb hmb)]
    rw [List.map_congr_left hid]
    exact List.map_id (sortBundles bs)
  conv_lhs => rw [sortBundles]
  rw [hmap]
  exact List.Sorted.insertionSort_eq (List.sorted_insertionSort bundleLe _)

/-! ### Safety of the first-module access and orchestrator boundary -/

/-- C10: preliminary bundles out of the resolver are never empty, bundles
out of the validator are never empty, and sorting such bundles keeps them
non-empty, so the `moduleFiles[0]` read in the bundle comparator is always
defined on validator output. -/
theorem nonempty_bundles_safety (moduleFiles : List ModuleFile) (bundles : List Bundle)
    (diagnostics : List Diagnostic) (mbs : List ManifestBundle) :
    (∀ mb ∈ (getManifestBundles moduleFiles bundles diagnostics).1, mb.moduleFiles ≠ []) ∧
    (∀ mb ∈ validateBundleModules mbs, mb.moduleFiles ≠ []) ∧
    (∀ mb ∈ sortBundles (validateBundleModules mbs), mb.moduleFiles ≠ []) := by
  have hval : ∀ mb ∈ validateBundleModules mbs, mb.moduleFiles ≠ [] := by
    intro mb h
    rcases validateBundleModules_foldl_good mbs [] mb h with hmem | hgood
    · exact absurd hmem (List.not_mem_nil mb)
    · exact hgood.1
  refine ⟨?_, hval, ?_⟩
  · intro mb h
    rw [getManifestBundles_fst] at h
    obtain ⟨b, _, heq⟩ := List.mem_filterMap.mp h
    by_cases hg : (resolvedModules moduleFiles b).length > 0
    · rw [if_pos hg] at heq
      have hmb := Option.some_injective _ heq
      rw [← hmb]
      intro hnil
      have : (resolvedModules moduleFiles b).length = 0 := by
        simpa [createManifestBundle] using congrArg List.length hnil
      omega
    · rw [if_neg hg] at heq
      exact absurd heq (by simp)
  · intro mb h
    obtain ⟨v, hv, heq⟩ := sortBundles_mem _ mb h
    have hvne := hval v hv
    rw [heq]
    show List.insertionSort modTagLe v.moduleFiles ≠ []
    intro hnil
    have hlen := congrArg List.length hnil
    rw [List.length_nil,
      (List.perm_insertionSort modTagLe v.moduleFiles).length_eq] at hlen
    exact hvne (List.length_eq_zero.mp hlen)

/-- Witness for C10: the resolver's demo output bundle is non-empty. -/
theorem nonempty_bundles_safety_witness :
    (createManifestBundle [demoPlainMod]).moduleFiles ≠ [] :=
  (nonempty_bundles_safety [demoPlainMod] [{ components := ["a-icon"] }] [] []).1
    (createManifestBundle [demoPlainMod]) (by decide)

/-- C9: with a prior fatal diagnostic the orchestrator returns the context
untouched and produces no bundles; and a collaborator exception is caught
at the orchestrator boundary and converted into an appended error-level
diagnostic instead of propagating. -/
theorem bundle_error_handling (collaborators : BuildContext → Except String BuildContext)
    (ctx : BuildContext) :
    (hasError ctx.diagnostics = true → bundle collaborators ctx = ctx) ∧
    (∀ e, hasError ctx.diagnostics = false →
      collaborators (bundlePipeline ctx) = Except.error e →
      bundle collaborators ctx =
        { bundlePipeline ctx with
          diagnostics := (bundlePipeline ctx).diagnostics ++
            [{ level := DiagLevel.error, messageText := e }] }) := by
  constructor
  · intro h
    unfold bundle
    rw [if_pos h]
  · intro e h he
    unfold bundle
    rw [if_neg (by simp [h]), he]
    rfl

/-- Demo context whose diagnostics already hold a fatal error. -/
def demoErrCtx : BuildContext :=
  { diagnostics := [buildError "prior failure"],
    manifest := { modulesFiles := [], bundles := [] },
    manifestBundles := [] }

/-- Demo context with no prior diagnostics. -/
def demoCleanCtx : BuildContext :=
  { diagnostics := [],
    manifest := { modulesFiles := [], bundles := [] },
    manifestBundles := [] }

/-- Witness for C9: the orchestrator short-circuits on the erroring demo
context and converts a thrown collaborator exception on the clean one. -/
theorem bundle_error_handling_witness :
    bundle Except.ok demoErrCtx = demoErrCtx ∧
    bundle (fun _ => Except.error "boom") demoCleanCtx =
      { bundlePipeline demoCleanCtx with
        diagnostics := (bundlePipeline demoCleanCtx).diagnostics ++
          [{ level := DiagLevel.error, messageText := "boom" }] } :=
  ⟨(bundle_error_handling Except.ok demoErrCtx).1 (by decide),
    (bundle_error_handling (fun _ => Except.error "boom") demoCleanCtx).2 "boom"
      (by decide) rfl⟩

end Stencil
